import Mathlib

/-!
Verification of the span reconciliation, table projection and highlight
rendering logic of `src/gliner-streamlit.py` (lines 122-171), embedded
shallowly: Python strings become `List Char`, Python ints become `Int`,
Python floats become `ℚ`, and the script's statement sequence becomes
pure functions with the mutated state passed explicitly.
-/

namespace Gliner

/-- One predicted entity dict as consumed at lines 122-165 of the script:
keys `start`, `end`, `label` and the optional `score` (read with
`ent.get("score", 0)` at line 135).  Python ints are `Int`, the float
score is modelled as a rational. -/
structure Ent where
  start : Int
  «end» : Int
  label : String
  score : Option ℚ
deriving DecidableEq

/-- Effective index of a Python slice bound `i` on a string of length `n`:
a negative bound counts from the end of the string (clamped below at 0),
a non-negative bound is clamped above at `n`.  This is CPython's
`PySlice_AdjustIndices` for step 1. -/
def effIdx (n : Nat) (i : Int) : Nat :=
  if i < 0 then ((n : Int) + i).toNat else min i.toNat n

/-- Python slice `t[a:b]` (step 1): the characters from `effIdx a` up to
`effIdx b`, empty when the effective range is inverted.  Total for all
integer bounds; embeds `text_input[ent["start"]:ent["end"]]` (line 131)
and `text_input[last_idx:start]` (line 152). -/
def pySlice (t : List Char) (a b : Int) : List Char :=
  (t.drop (effIdx t.length a)).take (effIdx t.length b - effIdx t.length a)

/-- Python slice `t[a:]`: everything from the effective index of `a` on;
embeds `text_input[last_idx:]` (line 165). -/
def pySliceFrom (t : List Char) (a : Int) : List Char :=
  t.drop (effIdx t.length a)

theorem effIdx_of_nonneg_le {n : Nat} {i : Int} (h0 : 0 ≤ i) (hn : i ≤ (n : Int)) :
    effIdx n i = i.toNat := by
  unfold effIdx
  rw [if_neg (by omega)]
  have : i.toNat ≤ n := by omega
  omega

theorem pySliceFrom_zero (t : List Char) : pySliceFrom t 0 = t := by
  unfold pySliceFrom
  rw [effIdx_of_nonneg_le le_rfl (by exact_mod_cast Nat.zero_le t.length)]
  simp

/-- Splicing law for in-range bounds: the slice `t[a:b]` followed by the
tail `t[b:]` is the tail `t[a:]`. -/
theorem pySlice_append_from (t : List Char) {a b : Int}
    (h0 : 0 ≤ a) (hab : a ≤ b) (hb : b ≤ (t.length : Int)) :
    pySlice t a b ++ pySliceFrom t b = pySliceFrom t a := by
  unfold pySlice pySliceFrom
  rw [effIdx_of_nonneg_le h0 (le_trans hab hb), effIdx_of_nonneg_le (le_trans h0 hab) hb]
  have hd : t.drop b.toNat = (t.drop a.toNat).drop (b.toNat - a.toNat) := by
    rw [List.drop_drop]
    congr 1
    omega
  rw [hd, List.take_append_drop]

/-- An inverted slice with non-negative bounds is empty. -/
theorem pySlice_nil_of_ge (t : List Char) {a b : Int} (h0 : 0 ≤ b) (hba : b ≤ a) :
    pySlice t a b = [] := by
  unfold pySlice effIdx
  rw [if_neg (by omega), if_neg (by omega)]
  have : min b.toNat t.length ≤ min a.toNat t.length := by
    have : b.toNat ≤ a.toNat := by omega
    omega
  rw [Nat.sub_eq_zero_of_le this, List.take_zero]

/-- A slice never has more characters than the string it comes from. -/
theorem pySlice_length_le (t : List Char) (a b : Int) :
    (pySlice t a b).length ≤ t.length := by
  unfold pySlice
  calc ((t.drop (effIdx t.length a)).take (effIdx t.length b - effIdx t.length a)).length
      ≤ (t.drop (effIdx t.length a)).length := by
        rw [List.length_take]; omega
    _ ≤ t.length := by rw [List.length_drop]; omega

/-- Stable insertion of an entity into a list: `e` goes in front of the
first element whose `start` is not smaller.  Elements passed over all have
`start` strictly below `e.start`, so insertion never reorders entities
with equal `start`. -/
def insertByStart (e : Ent) : List Ent → List Ent
  | [] => [e]
  | x :: xs => if e.start ≤ x.start then e :: x :: xs else x :: insertByStart e xs

/-- Stable sort of the entity list by the `start` field.  Python's
`entities.sort(key=lambda x: x['start'])` (line 122) is a stable sort by
this single key; any stable sort by the same key produces the same list,
so this insertion sort is a faithful model of it. -/
def sortEnts : List Ent → List Ent
  | [] => []
  | x :: xs => insertByStart x (sortEnts xs)

theorem insertByStart_perm (e : Ent) (l : List Ent) :
    List.Perm (insertByStart e l) (e :: l) := by
  induction l with
  | nil => simp [insertByStart]
  | cons x xs ih =>
    unfold insertByStart
    by_cases h : e.start ≤ x.start
    · rw [if_pos h]
    · rw [if_neg h]
      exact (List.Perm.cons x ih).trans (List.Perm.swap e x xs)

theorem sortEnts_perm (l : List Ent) : List.Perm (sortEnts l) l := by
  induction l with
  | nil => simp [sortEnts]
  | cons x xs ih =>
    unfold sortEnts
    exact (insertByStart_perm x (sortEnts xs)).trans (List.Perm.cons x ih)

theorem insertByStart_chain (e : Ent) (l : List Ent)
    (h : List.Chain' (fun a b => a.start ≤ b.start) l) :
    List.Chain' (fun a b => a.start ≤ b.start) (insertByStart e l) := by
  induction l with
  | nil => simp [insertByStart]
  | cons x xs ih =>
    unfold insertByStart
    by_cases hc : e.start ≤ x.start
    · rw [if_pos hc]
      exact List.Chain'.cons hc h
    · rw [if_neg hc]
      rcases xs with _ | ⟨y, ys⟩
      · unfold insertByStart
        exact List.chain'_pair.mpr (by omega)
      · have hx : List.Chain' (fun a b => a.start ≤ b.start) (y :: ys) := h.tail
        have hxy : x.start ≤ y.start := (List.chain'_cons.mp h).1
        have := ih hx
        unfold insertByStart
        by_cases hcy : e.start ≤ y.start
        · rw [if_pos hcy]
          exact List.Chain'.cons (by omega) (List.Chain'.cons hcy hx)
        · rw [if_neg hcy]
          have htail := ih hx
          unfold insertByStart at htail
          rw [if_neg hcy] at htail
          exact List.Chain'.cons hxy htail

theorem sortEnts_chain (l : List Ent) :
    List.Chain' (fun a b => a.start ≤ b.start) (sortEnts l) := by
  induction l with
  | nil => simp [sortEnts]
  | cons x xs ih => exact insertByStart_chain x (sortEnts xs) ih

theorem insertByStart_filter (e : Ent) (l : List Ent) (k : Int) :
    (insertByStart e l).filter (fun x => x.start == k)
      = if e.start = k then e :: l.filter (fun x => x.start == k)
        else l.filter (fun x => x.start == k) := by
  induction l with
  | nil =>
    by_cases he : e.start = k <;> simp [insertByStart, List.filter_cons, beq_iff_eq, he]
  | cons x xs ih =>
    unfold insertByStart
    by_cases hc : e.start ≤ x.start
    · rw [if_pos hc]
      by_cases he : e.start = k <;> simp [List.filter_cons, beq_iff_eq, he]
    · rw [if_neg hc]
      by_cases he : e.start = k
      · have hx : ¬ x.start = k := by omega
        simp [List.filter_cons, beq_iff_eq, he, hx, ih]
      · by_cases hxk : x.start = k <;> simp [List.filter_cons, beq_iff_eq, he, hxk, ih]

/-- Stability of the sort: among entities with any fixed `start` value, the
sorted list keeps the original relative order. -/
theorem sortEnts_filter (l : List Ent) (k : Int) :
    (sortEnts l).filter (fun x => x.start == k) = l.filter (fun x => x.start == k) := by
  induction l with
  | nil => rfl
  | cons x xs ih =>
    unfold sortEnts
    rw [insertByStart_filter, List.filter_cons]
    by_cases hx : x.start = k <;> simp [beq_iff_eq, hx, ih]

theorem sortEnts_eq_self_of_chain (l : List Ent)
    (h : List.Chain' (fun a b => a.start ≤ b.start) l) : sortEnts l = l := by
  induction l with
  | nil => rfl
  | cons x xs ih =>
    unfold sortEnts
    rw [ih h.tail]
    cases xs with
    | nil => rfl
    | cons y ys =>
      unfold insertByStart
      rw [if_pos (List.chain'_cons.mp h).1]

/-- The fallback color used at lines 76 and 149 of the script. -/
def defaultColor : String := "#90caf9"

/-- Palette lookup with fallback: embeds `color_options.get(label, "#90caf9")`
at line 149, with the Python dict modelled as an association list. -/
def colorFor (colorOptions : List (String × String)) (label : String) : String :=
  (colorOptions.lookup label).getD defaultColor

/-- Nearest integer with ties broken to the even neighbour: the tie-breaking
rule of Python's built-in `round`, with the float modelled as a rational. -/
def roundHalfEven (x : ℚ) : Int :=
  if x - ⌊x⌋ < 1/2 then ⌊x⌋
  else if 1/2 < x - ⌊x⌋ then ⌊x⌋ + 1
  else if ⌊x⌋ % 2 = 0 then ⌊x⌋ else ⌊x⌋ + 1

/-- Python `round(x, 3)` at line 135, on rationals. -/
def round3 (x : ℚ) : ℚ := (roundHalfEven (x * 1000) : ℚ) / 1000

theorem round3_zero : round3 0 = 0 := by
  have h : roundHalfEven 0 = 0 := by simp [roundHalfEven]
  simp [round3, h]

/-- One row of the entities table, with the dict keys used at lines 130-136. -/
structure Row where
  Entity : List Char
  Label : String
  Start : Int
  End : Int
  Score : ℚ
deriving DecidableEq

/-- The table built at lines 129-138: one dict per entity, in list order,
with `Entity = text_input[start:end]`, the label and offsets copied, and
the score defaulted to 0 then rounded to 3 decimals. -/
def entities_df (text_input : List Char) (entities : List Ent) : List Row :=
  entities.map fun ent =>
    ⟨pySlice text_input ent.start ent.«end», ent.label, ent.start, ent.«end»,
      round3 (ent.score.getD 0)⟩

/-- Newline plus the 24 spaces of indentation inside the f-string template
at lines 155-160. -/
def nl24 : List Char := "\n                        ".toList

/-- Newline plus the 28 spaces of indentation inside the f-string template. -/
def nl28 : List Char := "\n                            ".toList

def hlOpenA : List Char := "<span class=\"entity-highlight\" style=\"background-color:".toList

def hlOpenB : List Char := "\">".toList

def labelOpen : List Char := "<span class=\"entity-label\">".toList

def spanClose : List Char := "</span>".toList

/-- The block appended for one entity by the f-string at lines 155-160:
template whitespace, the opening highlight tag with the inline style and
color, the entity substring, the label tag with the label name, and the
closing tags, exactly as laid out in the source. -/
def entityMarkup (entText : List Char) (label color : String) : List Char :=
  nl24 ++ hlOpenA ++ color.toList ++ hlOpenB ++ nl28 ++ entText ++ nl28
    ++ labelOpen ++ label.toList ++ spanClose ++ nl24 ++ spanClose ++ nl24

/-- The render loop of lines 143-165 from an arbitrary cursor: for each
entity append the plain slice `text_input[last_idx:start]`, then the
markup block, then set `last_idx = end`; after the loop append
`text_input[last_idx:]`. -/
def highlightedFrom (t : List Char) (opts : List (String × String)) :
    Int → List Ent → List Char
  | lastIdx, [] => pySliceFrom t lastIdx
  | lastIdx, ent :: rest =>
      pySlice t lastIdx ent.start
        ++ entityMarkup (pySlice t ent.start ent.«end») ent.label (colorFor opts ent.label)
        ++ highlightedFrom t opts ent.«end» rest

/-- The `highlighted` string of lines 143-165, with `last_idx` starting at 0. -/
def highlighted (t : List Char) (opts : List (String × String)) (entities : List Ent) :
    List Char :=
  highlightedFrom t opts 0 entities

/-- The cursor update at line 162: `last_idx = end`, regardless of the
previous cursor value. -/
def nextLastIdx (_lastIdx : Int) (ent : Ent) : Int := ent.«end»

/-- One fragment of the renderer's output, classified: a markup tag, the
label name shown inside the label tag, fixed template whitespace, or
characters taken from the input text. -/
inductive Frag where
  | tag (s : List Char)
  | labelName (s : List Char)
  | ws (s : List Char)
  | text (s : List Char)
deriving DecidableEq

def fragChars : Frag → List Char
  | .tag s => s
  | .labelName s => s
  | .ws s => s
  | .text s => s

def joinFrags (fs : List Frag) : List Char := (fs.map fragChars).flatten

/-- The fragments of the block one entity contributes; joining them gives
exactly the characters `highlightedFrom` appends for that entity. -/
def entFrags (t : List Char) (lastIdx : Int) (ent : Ent) (color : String) : List Frag :=
  [.text (pySlice t lastIdx ent.start),
   .ws nl24, .tag (hlOpenA ++ color.toList ++ hlOpenB),
   .ws nl28, .text (pySlice t ent.start ent.«end»), .ws nl28,
   .tag labelOpen, .labelName ent.label.toList, .tag spanClose,
   .ws nl24, .tag spanClose, .ws nl24]

/-- The render loop of lines 143-165, instrumented: the same output as
`highlightedFrom` but as a list of classified fragments. -/
def renderLoopFrom (t : List Char) (opts : List (String × String)) :
    Int → List Ent → List Frag
  | lastIdx, [] => [.text (pySliceFrom t lastIdx)]
  | lastIdx, ent :: rest =>
      entFrags t lastIdx ent (colorFor opts ent.label)
        ++ renderLoopFrom t opts ent.«end» rest

def renderFrags (t : List Char) (opts : List (String × String)) (entities : List Ent) :
    List Frag :=
  renderLoopFrom t opts 0 entities

theorem joinFrags_append (a b : List Frag) :
    joinFrags (a ++ b) = joinFrags a ++ joinFrags b := by
  simp [joinFrags]

/-- The fragment decomposition is faithful: joining the fragments gives the
renderer's output string. -/
theorem highlightedFrom_eq_joinFrags (t : List Char) (opts : List (String × String))
    (lastIdx : Int) (es : List Ent) :
    highlightedFrom t opts lastIdx es = joinFrags (renderLoopFrom t opts lastIdx es) := by
  induction es generalizing lastIdx with
  | nil => simp [highlightedFrom, renderLoopFrom, joinFrags, fragChars]
  | cons e rest ih =>
    rw [highlightedFrom, renderLoopFrom, joinFrags_append, ← ih]
    simp [entFrags, joinFrags, fragChars, entityMarkup]

/-- Markup stripping exactly as the round-trip claim words it: remove the
highlight span tags (with the inline style), and the nested label tag
together with its label text; everything else is kept, including the
template whitespace standing between the tags. -/
def stripTagsAndLabels (fs : List Frag) : List Char :=
  (fs.map fun f => match f with
    | .tag _ => []
    | .labelName _ => []
    | .ws s => s
    | .text s => s).flatten

/-- The characters of the output that were taken from the input text: what
is left after stripping the tags, the label names AND the template
whitespace. -/
def textContent (fs : List Frag) : List Char :=
  (fs.map fun f => match f with
    | .text s => s
    | _ => []).flatten

theorem textContent_append (a b : List Frag) :
    textContent (a ++ b) = textContent a ++ textContent b := by
  simp [textContent]

/-- Validity chain for a span sequence from a given cursor: each span starts
at or after the cursor, is non-inverted, ends within the text, and the
remainder is valid from its end.  This is the sorted, non-overlapping,
in-bounds hypothesis of the round-trip law, as a decidable Bool. -/
def validChainB (n : Nat) : Int → List Ent → Bool
  | _, [] => true
  | lastIdx, ent :: rest =>
      decide (lastIdx ≤ ent.start) && decide (ent.start ≤ ent.«end»)
        && decide (ent.«end» ≤ (n : Int)) && validChainB n ent.«end» rest

/-- Round-trip of the text content: for a sorted, non-overlapping, in-bounds
span sequence, the characters the render loop takes from the text
reconstruct `t[lastIdx:]` exactly. -/
theorem textContent_renderLoop (t : List Char) (opts : List (String × String)) :
    ∀ (es : List Ent) (lastIdx : Int), 0 ≤ lastIdx →
      validChainB t.length lastIdx es = true →
      textContent (renderLoopFrom t opts lastIdx es) = pySliceFrom t lastIdx := by
  intro es
  induction es with
  | nil =>
    intro lastIdx _ _
    simp [renderLoopFrom, textContent]
  | cons e rest ih =>
    intro lastIdx h0 h
    simp only [validChainB, Bool.and_eq_true, decide_eq_true_eq] at h
    obtain ⟨⟨⟨h1, h2⟩, h3⟩, h4⟩ := h
    rw [renderLoopFrom, textContent_append]
    rw [ih e.«end» (by omega) h4]
    have hstep : textContent (entFrags t lastIdx e (colorFor opts e.label))
        = pySlice t lastIdx e.start ++ pySlice t e.start e.«end» := by
      simp [entFrags, textContent]
    rw [hstep, List.append_assoc,
        pySlice_append_from t (by omega) h2 h3,
        pySlice_append_from t h0 h1 (by omega)]

/-- What the results tab shows once prediction succeeded: either the table
plus the highlighted markup (lines 125-169), or the informational
"No entities were detected" message of the else branch (line 171). -/
inductive ResultsView where
  | results (table : List Row) (markup : List Char)
  | noEntities
deriving DecidableEq

/-- Lines 122-171 of the script as one function of the prediction output:
sort the entities in place, then either build the table and the
highlighted markup, or show the no-entities message when the list is
empty. -/
def appResults (text_input : List Char) (opts : List (String × String))
    (entities : List Ent) : ResultsView :=
  let sorted := sortEnts entities
  if sorted.isEmpty then ResultsView.noEntities
  else ResultsView.results (entities_df text_input sorted) (highlighted text_input opts sorted)

/-- The highlighted markup a results view carries, when it carries one. -/
def renderedMarkup : ResultsView → Option (List Char)
  | .results _ m => some m
  | .noEntities => none

/-- The table a results view carries, when it carries one. -/
def tableRows : ResultsView → Option (List Row)
  | .results rows _ => some rows
  | .noEntities => none

/-- The value held by the caller's entity list after line 122: Python's
`entities.sort(key=lambda x: x['start'])` sorts the list object in
place, so after the call the caller's list holds the sorted order. -/
def reconcileInPlace (entities : List Ent) : List Ent := sortEnts entities

/-- Test for the fragment that carries the label name inside the label tag. -/
def isLabelFrag : Frag → Bool
  | .labelName _ => true
  | _ => false

theorem countLabel_renderLoop (t : List Char) (opts : List (String × String))
    (es : List Ent) : ∀ lastIdx : Int,
    (renderLoopFrom t opts lastIdx es).countP isLabelFrag = es.length := by
  induction es with
  | nil => intro lastIdx; simp [renderLoopFrom, isLabelFrag]
  | cons e rest ih =>
    intro lastIdx
    rw [renderLoopFrom, List.countP_append, ih e.«end»]
    simp [entFrags, List.countP_cons, isLabelFrag]
    omega

/-- Claim C1, as stated, fails on the code: on Scenario A's text and its one
valid span, removing the markup tags and the label text from the render
output does not give back the input text, because the f-string template
interleaves fixed newline-and-indentation runs that are neither tags nor
label text. -/
theorem C1_strip_not_roundtrip :
    stripTagsAndLabels
        (renderFrags "Take amoxicillin now".toList
          [("drug generic name", "#26a69a")]
          [⟨5, 16, "drug generic name", some (92/100)⟩])
      ≠ "Take amoxicillin now".toList := by
  decide

/-- Claim C1 (amended): for every text and every sorted, non-overlapping,
in-bounds span sequence, stripping the markup tags, the label text AND the
template's fixed whitespace from the render output yields exactly the
original input text; and joining the classified fragments reproduces the
`highlighted` string itself. -/
theorem C1_roundtrip_text_content (t : List Char) (opts : List (String × String))
    (es : List Ent) (h : validChainB t.length 0 es = true) :
    textContent (renderFrags t opts es) = t
      ∧ highlighted t opts es = joinFrags (renderFrags t opts es) := by
  constructor
  · rw [renderFrags, textContent_renderLoop t opts es 0 le_rfl h, pySliceFrom_zero]
  · exact highlightedFrom_eq_joinFrags t opts 0 es

/-- Claim C1 witness: the amended round-trip law evaluated on Scenario A. -/
theorem C1_roundtrip_text_content_witness :
    validChainB ("Take amoxicillin now".toList).length 0
        [⟨5, 16, "drug generic name", some (92/100)⟩] = true
      ∧ (textContent (renderFrags "Take amoxicillin now".toList
            [("drug generic name", "#26a69a")]
            [⟨5, 16, "drug generic name", some (92/100)⟩])
          = "Take amoxicillin now".toList
        ∧ highlighted "Take amoxicillin now".toList
            [("drug generic name", "#26a69a")]
            [⟨5, 16, "drug generic name", some (92/100)⟩]
          = joinFrags (renderFrags "Take amoxicillin now".toList
              [("drug generic name", "#26a69a")]
              [⟨5, 16, "drug generic name", some (92/100)⟩])) :=
  ⟨by decide,
    C1_roundtrip_text_content "Take amoxicillin now".toList
      [("drug generic name", "#26a69a")]
      [⟨5, 16, "drug generic name", some (92/100)⟩] (by decide)⟩

/-- Claim C2, as stated, fails on the code: the malformed span
`{start: 10, end: 5}` of Scenario D is not excluded — no validation exists,
so it yields a table row (with an empty entity text) and its markup block
still appears in the rendering. -/
theorem C2_malformed_not_dropped :
    entities_df "Take amoxicillin now".toList [⟨10, 5, "x", none⟩]
        = [⟨[], "x", 10, 5, 0⟩]
      ∧ entities_df "Take amoxicillin now".toList [⟨10, 5, "x", none⟩] ≠ []
      ∧ (renderFrags "Take amoxicillin now".toList [] [⟨10, 5, "x", none⟩]).countP
          isLabelFrag = 1 := by
  refine ⟨?_, by simp [entities_df], ?_⟩
  · simp [entities_df, round3_zero]
    decide
  · exact countLabel_renderLoop "Take amoxicillin now".toList [] [⟨10, 5, "x", none⟩] 0

/-- Claim C2 (amended): reconciliation performs no validation at all — for
every raw entity list, every span (malformed or not) produces exactly one
table row and exactly one highlight block in the rendering, and no
exception is raised (all operations are total). -/
theorem C2_no_validation (t : List Char) (opts : List (String × String))
    (es : List Ent) :
    (entities_df t es).length = es.length
      ∧ (renderFrags t opts es).countP isLabelFrag = es.length := by
  constructor
  · simp [entities_df]
  · exact countLabel_renderLoop t opts es 0

/-- Claim C3, as stated, fails on the code: the cursor is set to `span.end`,
not `max(lastIdx, span.end)`, so a span contained in its predecessor moves
the cursor backwards and characters after its end are emitted twice — here
the stripped text content of spans `[0,10)` and `[2,5)` over a 10-character
text duplicates `c`, `d` and everything from index 5 on. -/
theorem C3_contained_span_duplicates :
    textContent (renderFrags "abcdefghij".toList []
        [⟨0, 10, "x", none⟩, ⟨2, 5, "x", none⟩])
      = "abcdefghijcdefghij".toList
    ∧ ("abcdefghijcdefghij".toList).count 'c' = 2
    ∧ ("abcdefghij".toList).count 'c' = 1 := by
  decide

/-- Claim C3 (amended): for an overlapping span (`start` at or below the
cursor, both non-negative) the renderer does emit nothing for the
plain-text region — the Python slice `text[lastIdx:start]` is empty — but
it advances the cursor to `span.end` unconditionally (line 162), not to
`max(lastIdx, span.end)`; when `span.end` is below the cursor this moves
the cursor backwards and text is duplicated. -/
theorem C3_step_empty_cursor_to_end (t : List Char) (lastIdx : Int) (e : Ent)
    (h0 : 0 ≤ e.start) (hle : e.start ≤ lastIdx) :
    pySlice t lastIdx e.start = [] ∧ nextLastIdx lastIdx e = e.«end» :=
  ⟨pySlice_nil_of_ge t h0 hle, rfl⟩

/-- Claim C3 witness: the overlapping-step behaviour at the concrete cursor
10 and span `[2,5)`. -/
theorem C3_step_empty_cursor_to_end_witness :
    (0 : Int) ≤ 2 ∧ (2 : Int) ≤ 10
      ∧ pySlice "abcdefghij".toList 10 2 = []
      ∧ nextLastIdx 10 ⟨2, 5, "x", none⟩ = 5 :=
  ⟨by decide, by decide,
    (C3_step_empty_cursor_to_end "abcdefghij".toList 10 ⟨2, 5, "x", none⟩
      (by decide) (by decide)).1,
    (C3_step_empty_cursor_to_end "abcdefghij".toList 10 ⟨2, 5, "x", none⟩
      (by decide) (by decide)).2⟩

/-- Claim C4, as stated, fails on the code: the sort key is `start` alone,
and Python's sort is stable, so two spans with equal start stay in arrival
order — the longer-first pair is NOT reordered into ascending `end`. -/
theorem C4_no_end_tiebreak :
    sortEnts [⟨0, 10, "a", none⟩, ⟨0, 5, "b", none⟩]
        = [⟨0, 10, "a", none⟩, ⟨0, 5, "b", none⟩]
      ∧ sortEnts [⟨0, 10, "a", none⟩, ⟨0, 5, "b", none⟩]
        ≠ [⟨0, 5, "b", none⟩, ⟨0, 10, "a", none⟩] := by
  decide

/-- Claim C4 (amended): the reconciliation sort orders spans by ascending
`start` only; it is a permutation of the input and it is stable — spans
sharing a `start` keep their original relative order (they are not
reordered by ascending `end`). -/
theorem C4_sort_by_start_stable (l : List Ent) :
    List.Perm (sortEnts l) l
      ∧ List.Chain' (fun a b => a.start ≤ b.start) (sortEnts l)
      ∧ ∀ k : Int, (sortEnts l).filter (fun x => x.start == k)
          = l.filter (fun x => x.start == k) :=
  ⟨sortEnts_perm l, sortEnts_chain l, fun k => sortEnts_filter l k⟩

/-- Claim C5, as stated, fails on the code: `entities.sort(...)` at line 122
sorts the caller's list in place, so after the call the list object holds
the sorted order — here an unsorted two-element list is changed. -/
theorem C5_list_mutated :
    reconcileInPlace [⟨1, 2, "a", none⟩, ⟨0, 1, "b", none⟩]
      ≠ [⟨1, 2, "a", none⟩, ⟨0, 1, "b", none⟩] := by
  decide

/-- Claim C5 (amended): reconciliation mutates the caller's list in place;
after the call the list holds the sorted order, and it is left unchanged
exactly when it was already sorted by ascending `start`. -/
theorem C5_mutation_iff_unsorted (l : List Ent) :
    reconcileInPlace l = l ↔ List.Chain' (fun a b => a.start ≤ b.start) l := by
  unfold reconcileInPlace
  exact ⟨fun h => h ▸ sortEnts_chain l, sortEnts_eq_self_of_chain l⟩

/-- Claim C6, as stated, fails on the code: two spans with equal `start`
both survive reconciliation and sit adjacent in the output, so consecutive
starts are not strictly increasing. -/
theorem C6_equal_starts_survive :
    sortEnts [⟨0, 5, "a", none⟩, ⟨0, 10, "b", none⟩]
        = [⟨0, 5, "a", none⟩, ⟨0, 10, "b", none⟩]
      ∧ (⟨0, 5, "a", none⟩ : Ent).start = (⟨0, 10, "b", none⟩ : Ent).start := by
  decide

/-- Claim C6 (amended): after reconciliation consecutive spans have
non-decreasing (not strictly increasing) `start`; spans sharing a start
offset are all kept. -/
theorem C6_starts_nondecreasing (l : List Ent) :
    List.Chain' (fun a b => a.start ≤ b.start) (sortEnts l) :=
  sortEnts_chain l

/-- Claim C7: the table projection produces one row per span, in input
order, with `Entity` the Python slice `text[start:end]`, the label and
offsets copied unchanged, and the score defaulted to 0 when absent and
rounded to 3 decimal places. -/
theorem C7_table_projection (t : List Char) (es : List Ent) :
    (entities_df t es).length = es.length
      ∧ ∀ i : Nat, (entities_df t es)[i]?
          = (es[i]?).map fun ent =>
              (⟨pySlice t ent.start ent.«end», ent.label, ent.start, ent.«end»,
                round3 (ent.score.getD 0)⟩ : Row) := by
  constructor
  · simp [entities_df]
  · intro i
    simp [entities_df]

/-- Claim C8, as stated, fails on the code: with an empty entity list the
script takes the `else` branch at line 171 and shows an informational
message — no table and, contrary to the claim, no rendered output at all
(so no rendering equal to the input text). -/
theorem C8_empty_shows_info :
    appResults "abc".toList [] [] = ResultsView.noEntities
      ∧ renderedMarkup (appResults "abc".toList [] []) = none
      ∧ tableRows (appResults "abc".toList [] []) = none := by
  decide

/-- Claim C8 (amended): an empty span list is not an error and raises no
exception, and it yields zero table rows — but the app shows the
no-entities message instead of a rendering; the render loop itself, applied
to an empty list, would return the original (possibly empty) text
unchanged. -/
theorem C8_empty_no_table_no_render (t : List Char) (opts : List (String × String)) :
    appResults t opts [] = ResultsView.noEntities ∧ highlighted t opts [] = t := by
  constructor
  · rfl
  · rw [highlighted, highlightedFrom, pySliceFrom_zero]

/-- Claim C9: the palette lookup returns the mapped color when the label is
present and the default fallback color when it is absent; it is a pure
lookup (the embedding of `color_options.get(label, "#90caf9")` at line 149
reads the palette and changes nothing). -/
theorem C9_colorFor_lookup (opts : List (String × String)) (label : String) :
    (∀ c : String, opts.lookup label = some c → colorFor opts label = c)
      ∧ (opts.lookup label = none → colorFor opts label = defaultColor) :=
  ⟨fun c h => by simp [colorFor, h], fun h => by simp [colorFor, h]⟩

/-- Claim C10, as stated, fails on the code: a negative offset is not an
empty slice — Python slicing counts negative bounds from the end of the
string, so the out-of-range span `[-3, 10)` over a 10-character text
produces the non-empty entity text `"hij"`. -/
theorem C10_negative_offset_not_empty :
    entities_df "abcdefghij".toList [⟨-3, 10, "x", none⟩]
        = [⟨"hij".toList, "x", -3, 10, 0⟩]
      ∧ "hij".toList ≠ ([] : List Char) := by
  refine ⟨?_, by decide⟩
  simp [entities_df, round3_zero]
  decide

/-- Claim C10 (amended): slicing is total for arbitrary integer offsets and
the pipeline never raises — the slice never exceeds the source text in
length, an inverted pair of non-negative offsets yields the empty string,
a negative offset counts from the end of the text (clamped at 0), and the
table always has exactly one row per raw entity. -/
theorem C10_slicing_total (t : List Char) (a b : Int) :
    (pySlice t a b).length ≤ t.length
      ∧ (0 ≤ b → b ≤ a → pySlice t a b = [])
      ∧ (a < 0 → effIdx t.length a = ((t.length : Int) + a).toNat)
      ∧ ∀ es : List Ent, (entities_df t es).length = es.length := by
  refine ⟨pySlice_length_le t a b, fun h0 hba => pySlice_nil_of_ge t h0 hba,
    fun h => ?_, fun es => by simp [entities_df]⟩
  rw [effIdx, if_pos h]

end Gliner
